import Mathlib

/-!
Verification of the GophKeeper secret-vault core against its Go sources.

Shallow embedding conventions: byte strings are `List Nat`, Go slices and
maps become lists, fallible calls return `Except`, and nondeterministic
inputs (RNG draws, database-generated ids, clock readings) are passed as
explicit arguments.  Cryptographic primitives (Argon2id, AES-256-GCM,
SHA-256) are kept abstract: the functions that use them take them as
parameters, and theorems state the hypotheses (e.g. GCM round-trip
correctness) under which the surrounding code is correct.
-/

namespace Gophkeeper

/-- Decidable equality on `Except`, used to evaluate concrete runs of the
embedded functions. -/
instance exceptDecEq {ε α : Type} [DecidableEq ε] [DecidableEq α] :
    DecidableEq (Except ε α) := fun x y =>
  match x, y with
  | .error a, .error b => decidable_of_iff (a = b) (by simp)
  | .error _, .ok _ => isFalse (fun hc => Except.noConfusion hc)
  | .ok _, .error _ => isFalse (fun hc => Except.noConfusion hc)
  | .ok a, .ok b => decidable_of_iff (a = b) (by simp)

/-- Model of Go strings.TrimSpace on rune lists: strip leading and trailing
whitespace. -/
def goTrim (l : List Char) : List Char :=
  ((l.dropWhile Char.isWhitespace).reverse.dropWhile Char.isWhitespace).reverse

/-- Model of Go strings.ToLower restricted to its per-rune action: lowercase
each rune. -/
def goLower (l : List Char) : List Char := l.map Char.toLower

namespace AgentCrypto

/-! Envelope codec: internal/agent/crypto (kdf.go, encrypt.go, decrypt.go). -/

/-- The error values of internal/agent/crypto.  `aesInitErr` stands for the
wrapped aes.NewCipher initialisation error. -/
inductive CryptoErr where
  | invalidKey
  | ciphertextShort
  | invalidFormat
  | authFailed
  | aesInitErr
deriving DecidableEq

/-- FormatMagic = "gk1" as bytes. -/
def FormatMagic : List Nat := [103, 107, 49]

/-- NonceSize for AES-GCM. -/
def NonceSize : Nat := 12

/-- KeySize for AES-256. -/
def KeySize : Nat := 32

/-- SaltSize for the KDF. -/
def SaltSize : Nat := 16

/-- KDFParams from kdf.go. -/
structure KDFParams where
  time : Nat
  memory : Nat
  threads : Nat
  keyLen : Nat
  saltLen : Nat
deriving DecidableEq

/-- DefaultKDFParams from kdf.go. -/
def DefaultKDFParams : KDFParams :=
  { time := 2, memory := 64 * 1024, threads := 2, keyLen := KeySize, saltLen := SaltSize }

theorem defaultSaltLen : DefaultKDFParams.saltLen = 16 := rfl

theorem defaultKeyLen : DefaultKDFParams.keyLen = 32 := rfl

/-- The AES-256-GCM interface as the codec uses it: `sealGCM key nonce plain`
returns ciphertext-with-tag, `openGCM key nonce ct` authenticates and
decrypts (additional data is empty in both Go call sites, so it is not a
parameter).  The codec is verified for any cipher satisfying the stated
correctness hypotheses. -/
structure AEAD where
  sealGCM : List Nat → List Nat → List Nat → List Nat
  openGCM : List Nat → List Nat → List Nat → Option (List Nat)

/-- aes.NewCipher succeeds exactly for 16/24/32-byte keys. -/
def aesKeyLenOK (n : Nat) : Bool := n == 16 || n == 24 || n == 32

/-- EncryptPayload from encrypt.go (part_006).  The RNG draws for salt and
nonce are passed in (`salt`, `nonce`); an RNG failure corresponds to these
arguments not being available, so it is outside this pure model.  `kdf`
models DeriveKey at the default parameters. -/
def EncryptPayload (A : AEAD) (kdf : String → List Nat → List Nat)
    (salt nonce : List Nat) (pw : String) (payload : List Nat) :
    Except CryptoErr (List Nat) :=
  let key := kdf pw salt
  if key.length ≠ KeySize then .error .invalidKey
  else
    let ct := A.sealGCM key nonce payload
    .ok (FormatMagic ++ salt ++ nonce ++ ct)

/-- DecryptPayload from decrypt.go. -/
def DecryptPayload (A : AEAD) (kdf : String → List Nat → List Nat)
    (pw : String) (blob : List Nat) : Except CryptoErr (List Nat) :=
  let params := DefaultKDFParams
  let minLen := FormatMagic.length + params.saltLen + NonceSize + 1
  if blob.length < minLen then .error .ciphertextShort
  else if blob.take FormatMagic.length ≠ FormatMagic then .error .invalidFormat
  else
    let salt := (blob.drop FormatMagic.length).take params.saltLen
    let nonce := (blob.drop (FormatMagic.length + params.saltLen)).take NonceSize
    let ct := blob.drop (FormatMagic.length + params.saltLen + NonceSize)
    if ct.length = 0 then .error .invalidFormat
    else
      let key := kdf pw salt
      if aesKeyLenOK key.length then
        match A.openGCM key nonce ct with
        | some plain => .ok plain
        | none => .error .authFailed
      else .error .aesInitErr

/-- Layout of a sealed blob: how DecryptPayload's take/drop arithmetic
recovers the salt, nonce and ciphertext that EncryptPayload concatenated. -/
theorem blob_layout (salt nonce ct : List Nat)
    (hs : salt.length = 16) (hn : nonce.length = 12) :
    (FormatMagic ++ salt ++ nonce ++ ct).length = 31 + ct.length
    ∧ (FormatMagic ++ salt ++ nonce ++ ct).take FormatMagic.length = FormatMagic
    ∧ ((FormatMagic ++ salt ++ nonce ++ ct).drop FormatMagic.length).take 16 = salt
    ∧ ((FormatMagic ++ salt ++ nonce ++ ct).drop (FormatMagic.length + 16)).take 12 = nonce
    ∧ (FormatMagic ++ salt ++ nonce ++ ct).drop (FormatMagic.length + 16 + 12) = ct := by
  have hassoc : FormatMagic ++ salt ++ nonce ++ ct
      = FormatMagic ++ (salt ++ (nonce ++ ct)) := by
    simp [List.append_assoc]
  have hmlen : FormatMagic.length = 3 := rfl
  refine ⟨?_, ?_, ?_, ?_, ?_⟩
  · simp [List.length_append, hs, hn, FormatMagic]
    omega
  · rw [hassoc]
    exact List.take_left FormatMagic (salt ++ (nonce ++ ct))
  · rw [hassoc, List.drop_left]
    exact List.take_left' hs
  · rw [hassoc, hmlen]
    have : (FormatMagic ++ (salt ++ (nonce ++ ct))).drop (3 + 16)
        = nonce ++ ct := by
      rw [← List.drop_drop]
      rw [show (FormatMagic ++ (salt ++ (nonce ++ ct))).drop 3
            = salt ++ (nonce ++ ct) from List.drop_left' hmlen]
      exact List.drop_left' hs
    rw [this]
    exact List.take_left' hn
  · rw [hassoc, hmlen]
    rw [← List.drop_drop, ← List.drop_drop]
    rw [show (FormatMagic ++ (salt ++ (nonce ++ ct))).drop 3
          = salt ++ (nonce ++ ct) from List.drop_left' hmlen]
    rw [show (salt ++ (nonce ++ ct)).drop 16 = nonce ++ ct from List.drop_left' hs]
    exact List.drop_left' hn

/-- C1.  Envelope round-trip: for every master password and plaintext of
length at least 1, if EncryptPayload succeeds then DecryptPayload of its
output under the same password succeeds and returns exactly the plaintext.
Hypotheses: the RNG drew a 16-byte salt and a 12-byte nonce, the KDF
produces a 32-byte key, and the AEAD satisfies GCM correctness (non-empty
ciphertext, and opening a sealed message under the same key and nonce
returns the message). -/
theorem envelope_roundtrip (A : AEAD) (kdf : String → List Nat → List Nat)
    (salt nonce m blob : List Nat) (pw : String)
    (hs : salt.length = SaltSize) (hn : nonce.length = NonceSize)
    (hm : 1 ≤ m.length)
    (hk : (kdf pw salt).length = KeySize)
    (hct : 1 ≤ (A.sealGCM (kdf pw salt) nonce m).length)
    (hrt : A.openGCM (kdf pw salt) nonce (A.sealGCM (kdf pw salt) nonce m) = some m)
    (henc : EncryptPayload A kdf salt nonce pw m = .ok blob) :
    DecryptPayload A kdf pw blob = .ok m := by
  have hb : blob = FormatMagic ++ salt ++ nonce ++ A.sealGCM (kdf pw salt) nonce m := by
    have hENC : EncryptPayload A kdf salt nonce pw m
        = .ok (FormatMagic ++ salt ++ nonce ++ A.sealGCM (kdf pw salt) nonce m) := by
      simp [EncryptPayload, hk]
    rw [hENC] at henc
    exact ((Except.ok.injEq _ _).mp henc).symm
  subst hb
  obtain ⟨hlen, htake, hsalt, hnonce, hctx⟩ :=
    blob_layout salt nonce (A.sealGCM (kdf pw salt) nonce m) hs hn
  have hmlen3 : FormatMagic.length = 3 := rfl
  rw [DecryptPayload]
  simp only [defaultSaltLen, NonceSize, hsalt, hnonce, hctx]
  rw [hlen, htake]
  rw [if_neg (by rw [hmlen3]; omega)]
  rw [if_neg (by simp)]
  rw [if_neg (show ¬ ((A.sealGCM (kdf pw salt) nonce m).length = 0) by omega)]
  have hok : aesKeyLenOK (kdf pw salt).length = true := by
    rw [hk]
    rfl
  rw [if_pos hok, hrt]

/-- Demonstration AEAD used only to witness the codec theorems: the tag is
16 zero bytes; opening strips it.  It satisfies round-trip correctness but
is of course not a real cipher. -/
def demoAEAD : AEAD where
  sealGCM := fun _ _ m => m ++ List.replicate 16 0
  openGCM := fun _ _ c =>
    if c.length < 16 then none
    else if c.drop (c.length - 16) = List.replicate 16 0 then some (c.take (c.length - 16))
    else none

/-- Demonstration AEAD whose open always fails, used to witness the
AuthFailed branch. -/
def demoFailAEAD : AEAD where
  sealGCM := fun _ _ m => m ++ List.replicate 16 0
  openGCM := fun _ _ _ => none

/-- Demonstration KDF used only in witnesses: a constant 32-byte key. -/
def demoKDF : String → List Nat → List Nat := fun _ _ => List.replicate 32 0

/-- Witness for C1 at concrete inputs. -/
theorem envelope_roundtrip_witness :
    DecryptPayload demoAEAD demoKDF "pw"
      (FormatMagic ++ List.replicate 16 0 ++ List.replicate 12 0
        ++ ([7] ++ List.replicate 16 0)) = .ok [7] :=
  envelope_roundtrip demoAEAD demoKDF (List.replicate 16 0) (List.replicate 12 0)
    [7] (FormatMagic ++ List.replicate 16 0 ++ List.replicate 12 0
      ++ ([7] ++ List.replicate 16 0)) "pw"
    (by decide) (by decide) (by decide) (by decide) (by decide) (by decide) rfl

theorem magicLen : FormatMagic.length = 3 := rfl

/-- C8.  Open error taxonomy and check order for DecryptPayload: blobs
shorter than 3 + 16 + 12 + 1 = 32 bytes yield the short-format error before
any other check (in particular also when the magic is wrong); blobs of
length at least 32 whose first three bytes are not "gk1" yield the
invalid-format error; and on a well-formed blob every GCM open failure
yields the single authFailed error, whatever its cause. -/
theorem decrypt_error_taxonomy (A : AEAD) (kdf : String → List Nat → List Nat)
    (pw : String) (blob : List Nat) :
    (blob.length < 32 → DecryptPayload A kdf pw blob = .error .ciphertextShort)
    ∧ (32 ≤ blob.length → blob.take 3 ≠ FormatMagic →
        DecryptPayload A kdf pw blob = .error .invalidFormat)
    ∧ (32 ≤ blob.length → blob.take 3 = FormatMagic →
        aesKeyLenOK (kdf pw ((blob.drop 3).take 16)).length = true →
        A.openGCM (kdf pw ((blob.drop 3).take 16)) ((blob.drop 19).take 12)
            (blob.drop 31) = none →
        DecryptPayload A kdf pw blob = .error .authFailed) := by
  have hml : FormatMagic.length + DefaultKDFParams.saltLen + NonceSize + 1 = 32 := rfl
  refine ⟨?_, ?_, ?_⟩
  · intro h
    rw [DecryptPayload]
    rw [if_pos (by rw [hml]; exact h)]
  · intro h h2
    rw [DecryptPayload]
    rw [if_neg (by rw [hml]; omega)]
    rw [if_pos (by rw [magicLen]; exact h2)]
  · intro h h2 h3 h4
    rw [DecryptPayload]
    simp only [defaultSaltLen, NonceSize, magicLen, Nat.reduceAdd]
    rw [if_neg (by omega)]
    rw [if_neg (not_not_intro h2)]
    rw [if_neg (show ¬ ((List.drop 31 blob).length = 0) by rw [List.length_drop]; omega)]
    rw [if_pos h3, h4]

/-- Witness for C8: the three branches at concrete blobs (a 3-byte blob, a
40-byte blob of zeros, and a 32-byte well-formed blob opened by a cipher
that rejects it). -/
theorem decrypt_error_taxonomy_witness :
    DecryptPayload demoAEAD demoKDF "pw" [0, 1, 2] = .error .ciphertextShort
    ∧ DecryptPayload demoAEAD demoKDF "pw" (List.replicate 40 0) = .error .invalidFormat
    ∧ DecryptPayload demoFailAEAD demoKDF "pw" (FormatMagic ++ List.replicate 29 0)
        = .error .authFailed :=
  ⟨(decrypt_error_taxonomy demoAEAD demoKDF "pw" [0, 1, 2]).1 (by decide),
   (decrypt_error_taxonomy demoAEAD demoKDF "pw" (List.replicate 40 0)).2.1
     (by decide) (by decide),
   (decrypt_error_taxonomy demoFailAEAD demoKDF "pw"
       (FormatMagic ++ List.replicate 29 0)).2.2
     (by decide) (by decide) (by decide) (by decide)⟩

end AgentCrypto

/-- The shared domain errors of internal/shared/errors/errors.go.
ErrSecretNotFound is referenced by the agent memory store and
ErrSecretVersionConflict by the secrets repository; both are declared in a
part of the errors package that lies outside the provided sources.  The
HTTP handler matches the repository value with errors.Is(err, ErrConflict)
and maps it to 409, so it is modelled as the `conflict` kind. -/
inductive Err where
  | invalidInput
  | invalidCredentials
  | internalErr
  | badJSON
  | unauthorized
  | alreadyExists
  | notFound
  | conflict
  | payloadTooLarge
  | metaTooLarge
  | userIDEmpty
  | secretNotFound
deriving DecidableEq

namespace Memory

/-! Agent local mirror: the memory package (part_004). -/

/-- The local Secret model of the agent (part_004).  Timestamps are modelled
as integers. -/
structure Secret where
  sid : String
  typ : String
  title : String
  payload : String
  meta : Option String
  version : Int
  updatedAt : Int
  createdAt : Int
deriving DecidableEq

/-- Model of the Go map[string]Secret held by SecretsStore: an association
list from secret ID to Secret. -/
abbrev SMap := List (String × Secret)

/-- Map read: the binding of the first matching key. -/
def mapGet : SMap → String → Option Secret
  | [], _ => none
  | p :: m, k => if p.1 = k then some p.2 else mapGet m k

/-- Map write: replace the binding if the key is present, otherwise append
it. -/
def mapInsert : SMap → String → Secret → SMap
  | [], k, v => [(k, v)]
  | p :: m, k, v => if p.1 = k then (k, v) :: m else p :: mapInsert m k v

/-- ReplaceAll from part_004: the map is rebuilt from scratch from the given
list; on duplicate IDs the later element overwrites the earlier one.  The
previous store contents are discarded. -/
def ReplaceAll (_st : SMap) (secrets : List Secret) : SMap :=
  secrets.foldl (fun m sec => mapInsert m sec.sid sec) []

/-- Get from part_004: ErrSecretNotFound when the ID is absent. -/
def Get (st : SMap) (sid : String) : Except Err Secret :=
  match mapGet st sid with
  | some sec => .ok sec
  | none => .error .secretNotFound

theorem mapGet_insert (m : SMap) (k q : String) (v : Secret) :
    mapGet (mapInsert m k v) q = if q = k then some v else mapGet m q := by
  induction m with
  | nil =>
      by_cases h : q = k <;> simp [mapInsert, mapGet, h, Ne.symm]
  | cons p m ih =>
      by_cases hp : p.1 = k <;> by_cases hq : q = k <;>
        by_cases hpq : p.1 = q <;>
          simp_all [mapInsert, mapGet]

theorem mem_keys_mapInsert (m : SMap) (k q : String) (v : Secret) :
    q ∈ (mapInsert m k v).map Prod.fst ↔ q = k ∨ q ∈ m.map Prod.fst := by
  induction m with
  | nil => simp [mapInsert]
  | cons p m ih =>
      by_cases hp : p.1 = k <;> simp [mapInsert, hp, ih] <;> tauto

theorem nodup_keys_mapInsert (m : SMap) (k : String) (v : Secret)
    (h : (m.map Prod.fst).Nodup) : ((mapInsert m k v).map Prod.fst).Nodup := by
  induction m with
  | nil => simp [mapInsert]
  | cons p m ih =>
      by_cases hp : p.1 = k
      · rw [show mapInsert (p :: m) k v = (k, v) :: m from by simp [mapInsert, hp]]
        rw [List.map_cons, List.nodup_cons] at h ⊢
        exact ⟨by rw [← hp]; exact h.1, h.2⟩
      · rw [show mapInsert (p :: m) k v = p :: mapInsert m k v from by simp [mapInsert, hp]]
        rw [List.map_cons, List.nodup_cons] at h ⊢
        refine ⟨?_, ih h.2⟩
        intro hmem
        rcases (mem_keys_mapInsert m k p.1 v).mp hmem with h3 | h3
        · exact hp h3
        · exact h.1 h3

theorem foldl_insert_get (l : List Secret) (acc : SMap) (q : String) :
    mapGet (l.foldl (fun m sec => mapInsert m sec.sid sec) acc) q
      = match l.reverse.find? (fun sec => sec.sid == q) with
        | some sec => some sec
        | none => mapGet acc q := by
  induction l generalizing acc with
  | nil => simp
  | cons s l ih =>
      rw [List.foldl_cons, ih, List.reverse_cons, List.find?_append]
      cases hf : l.reverse.find? (fun sec => sec.sid == q) with
      | some t => simp [hf]
      | none =>
          by_cases hq : s.sid = q
          · simp [hf, List.find?, hq, mapGet_insert, eq_comm, beq_iff_eq]
          · have hbeq : (s.sid == q) = false := beq_eq_false_iff_ne.mpr hq
            have hqs : ¬ q = s.sid := fun hc => hq hc.symm
            simp [List.find?, hbeq, mapGet_insert, hqs]

/-- C10.  Mirror replacement keys by id with last-occurrence-wins: after
ReplaceAll(list) the store has pairwise distinct ids, the pre-existing
contents are irrelevant, and Get(id) returns the last element of the list
bearing that id (the first match in the reversed list) when one exists and
ErrSecretNotFound otherwise. -/
theorem replaceAll_last_occurrence_wins (st : SMap) (l : List Secret) :
    (((ReplaceAll st l).map Prod.fst).Nodup)
    ∧ ∀ q, Get (ReplaceAll st l) q =
        match l.reverse.find? (fun sec => sec.sid == q) with
        | some sec => Except.ok sec
        | none => Except.error Err.secretNotFound := by
  constructor
  · have hstep : ∀ (l : List Secret) (acc : SMap), (acc.map Prod.fst).Nodup →
        ((l.foldl (fun m sec => mapInsert m sec.sid sec) acc).map Prod.fst).Nodup := by
      intro l
      induction l with
      | nil => intro acc h; simpa using h
      | cons s l ih =>
          intro acc h
          exact ih _ (nodup_keys_mapInsert _ _ _ h)
    exact hstep l [] (by simp)
  · intro q
    rw [Get, ReplaceAll, foldl_insert_get]
    cases hf : l.reverse.find? (fun sec => sec.sid == q) <;> simp [hf, mapGet]

end Memory

namespace ServerCrypto

/-! Account password hashing: internal/server/crypto/password.go. -/

/-- Value of a base64 standard-alphabet character. -/
def b64Val (c : Char) : Option Nat :=
  if 65 ≤ c.toNat ∧ c.toNat ≤ 90 then some (c.toNat - 65)
  else if 97 ≤ c.toNat ∧ c.toNat ≤ 122 then some (c.toNat - 97 + 26)
  else if 48 ≤ c.toNat ∧ c.toNat ≤ 57 then some (c.toNat - 48 + 52)
  else if c = '+' then some 62
  else if c = '/' then some 63
  else none

/-- Regrouping of 6-bit values into bytes per Go base64 RawStdEncoding (no
padding): a trailing group of one value is invalid; trailing groups of two
or three values contribute one or two bytes. -/
def b64Group : List Nat → Option (List Nat)
  | [] => some []
  | [_] => none
  | [a, b] => some [a * 4 + b / 16]
  | [a, b, c] => some [a * 4 + b / 16, (b % 16) * 16 + c / 4]
  | a :: b :: c :: d :: rest =>
      match b64Group rest with
      | some tail => some ([a * 4 + b / 16, (b % 16) * 16 + c / 4, (c % 4) * 64 + d] ++ tail)
      | none => none

/-- Go base64.RawStdEncoding.DecodeString on a rune list. -/
def b64Decode (l : List Char) : Option (List Nat) :=
  match l.mapM b64Val with
  | some vals => b64Group vals
  | none => none

/-- Read a run of decimal digits (at least one) from the front of a rune
list, as fmt's %d verb does for unsigned integers. -/
def readDigits (l : List Char) : Option (Nat × List Char) :=
  let ds := l.takeWhile Char.isDigit
  if ds.isEmpty then none
  else some (ds.foldl (fun n c => n * 10 + (c.toNat - 48)) 0, l.dropWhile Char.isDigit)

/-- Consume an exact literal from the front of a rune list. -/
def dropExact : List Char → List Char → Option (List Char)
  | [], l => some l
  | _ :: _, [] => none
  | c :: cs, x :: xs => if c = x then dropExact cs xs else none

/-- Model of fmt.Sscanf(s, "m=%d,t=%d,p=%d", &memory, &time, &threads):
the literal text must match and each %d reads a digit run; input remaining
after the last verb is ignored, as Sscanf does not require consuming the
whole string. -/
def parseArgonParams (l : List Char) : Option (Nat × Nat × Nat) := do
  let l ← dropExact ['m', '='] l
  let (m, l) ← readDigits l
  let l ← dropExact [',', 't', '='] l
  let (t, l) ← readDigits l
  let l ← dropExact [',', 'p', '='] l
  let (p, _) ← readDigits l
  some (m, t, p)

/-- The abstract Argon2id tag function:
`idKey password salt time memory threads keyLen`. -/
abbrev IDKeyFn := String → List Nat → Nat → Nat → Nat → Nat → List Nat

/-- VerifyPassword (password.go) after strings.Split(encoded, "$"): match
on the five parts, decode parameters, salt and stored tag, recompute the
tag and compare (subtle.ConstantTimeCompare equality, which also compares
lengths).  Note the Sscanf order (m, t, p) against the argon2.IDKey
argument order (time, memory, threads). -/
def verifyParts (idKey : IDKeyFn) (password : String) (parts : List (List Char)) :
    Except String Bool :=
  match parts with
  | [_, _, ps, saltPart, hashPart] =>
      match parseArgonParams ps with
      | none => .error "invalid params format"
      | some (m, t, p) =>
          match b64Decode saltPart with
          | none => .error "invalid salt"
          | some salt =>
              match b64Decode hashPart with
              | none => .error "invalid hash"
              | some wantHash =>
                  .ok (idKey password salt t m p wantHash.length == wantHash)
  | _ => .error "invalid hash format"

/-- VerifyPassword from password.go. -/
def VerifyPassword (idKey : IDKeyFn) (password encoded : String) : Except String Bool :=
  verifyParts idKey password (encoded.toList.splitOn '$')

/-- Demonstration Argon2id tag function used only in witnesses: an all-zero
tag of the requested length. -/
def demoIDKey : IDKeyFn := fun _ _ _ _ _ len => List.replicate len 0

/-- C9.  VerifyPassword ignores the algorithm and version fields of the
encoded verifier: for five-part encodings the result does not depend on the
first two parts; when parameters, salt and stored tag decode, the result is
ok-with-comparison (never an error, so a merely wrong password yields
.ok false); and a concrete verifier whose first part is "bcrypt" and whose
second part is "v=18" still verifies successfully. -/
theorem verify_ignores_alg_and_version (idKey : IDKeyFn) (password : String)
    (alg1 ver1 alg2 ver2 ps saltPart hashPart : List Char) :
    (verifyParts idKey password [alg1, ver1, ps, saltPart, hashPart]
        = verifyParts idKey password [alg2, ver2, ps, saltPart, hashPart])
    ∧ (∀ m t p salt wantHash,
        parseArgonParams ps = some (m, t, p) →
        b64Decode saltPart = some salt →
        b64Decode hashPart = some wantHash →
        verifyParts idKey password [alg1, ver1, ps, saltPart, hashPart]
          = .ok (idKey password salt t m p wantHash.length == wantHash))
    ∧ VerifyPassword demoIDKey "pw" "bcrypt$v=18$m=1,t=1,p=1$AAAA$AAAA" = .ok true := by
  refine ⟨rfl, ?_, by decide⟩
  intro m t p salt wantHash h1 h2 h3
  simp [verifyParts, h1, h2, h3]

/-- Witness for C9 at a concrete well-formed verifier. -/
theorem verify_ignores_alg_and_version_witness :
    verifyParts demoIDKey "pw"
        ["argon2id".toList, "v=19".toList, "m=1,t=1,p=1".toList,
         "AAAA".toList, "AAAA".toList]
      = .ok (demoIDKey "pw" [0, 0, 0] 1 1 1 ([0, 0, 0] : List Nat).length == [0, 0, 0]) :=
  (verify_ignores_alg_and_version demoIDKey "pw" "argon2id".toList "v=19".toList
      "x".toList "y".toList "m=1,t=1,p=1".toList "AAAA".toList "AAAA".toList).2.1
    1 1 1 [0, 0, 0] [0, 0, 0] (by decide) (by decide) (by decide)

end ServerCrypto

namespace AuthService

/-! Auth service: Register, Login and Refresh of the service package. -/

/-- True when no rune of the list is whitespace. -/
def noSpace (l : List Char) : Bool := l.all (fun c => !c.isWhitespace)

/-- Model of the service email pattern ^[^@\s]+@[^@\s]+\.[^@\s]+$ : the
string splits at a unique '@' into a non-empty whitespace-free user part
and a whitespace-free host part containing an inner dot (a dot that is
neither the first nor the last rune of the host; [^@\s] admits further dots
on both sides of the chosen one, so an inner dot is exactly what the
pattern requires of the host). -/
def emailMatches (l : List Char) : Bool :=
  match l.splitOn '@' with
  | [user, host] =>
      !user.isEmpty && noSpace user && noSpace host
        && ((host.drop 1).dropLast).contains '.'
  | _ => false

/-- A pair of minted tokens. -/
structure TokenPair where
  access : List Char
  refresh : List Char
deriving DecidableEq

/-- The collaborators of AuthService, as abstract functions: users
repository, password verifier, token minting (None models an RNG/signing
failure), session creation result and the refresh-token hash. -/
structure AuthDeps where
  hashPassword : List Char → Option String
  usersCreate : List Char → String → Except Err Nat
  getByEmail : List Char → Except Err (Nat × String)
  verifyPwd : List Char → String → Except Err Bool
  mintAccess : Nat → Option (List Char)
  mintRefresh : Option (List Char)
  createSession : Nat → Nat → Except Err Nat
  hashRefresh : List Char → Nat

/-- Register from the service package: trim/lowercase, then reject empty
fields, a pattern-failing email, or a trimmed password shorter than 8. -/
def Register (d : AuthDeps) (email password : List Char) : Except Err Nat :=
  let email := goTrim (goLower email)
  let password := goTrim password
  if email = [] ∨ password = [] ∨ ¬ emailMatches email ∨ password.length < 8 then
    .error .invalidInput
  else
    match d.hashPassword password with
    | none => .error .internalErr
    | some hash => d.usersCreate email hash

/-- Login from the service package: trim/lowercase, reject only empty
fields, then look the user up, verify the password, mint the tokens and
create the session. -/
def Login (d : AuthDeps) (email password : List Char) : Except Err TokenPair :=
  let email := goTrim (goLower email)
  let password := goTrim password
  if email = [] ∨ password = [] then .error .invalidInput
  else
    match d.getByEmail email with
    | .error e => if e = .notFound then .error .invalidCredentials else .error e
    | .ok (userID, hash) =>
        match d.verifyPwd password hash with
        | .error _ => .error .internalErr
        | .ok false => .error .invalidCredentials
        | .ok true =>
            match d.mintAccess userID with
            | none => .error .internalErr
            | some access =>
                match d.mintRefresh with
                | none => .error .internalErr
                | some refresh =>
                    match d.createSession userID (d.hashRefresh refresh) with
                    | .error e => .error e
                    | .ok _ => .ok ⟨access, refresh⟩

/-- Demonstration dependencies for Login/Register: the user lookup returns
the marker error `conflict`, so a Login outcome of `conflict` proves the
lookup was reached and its result used. -/
def demoLoginDeps : AuthDeps where
  hashPassword := fun _ => some "h"
  usersCreate := fun _ _ => .ok 1
  getByEmail := fun _ => .error .conflict
  verifyPwd := fun _ _ => .ok true
  mintAccess := fun _ => some "a".toList
  mintRefresh := some "r".toList
  createSession := fun _ _ => .ok 1
  hashRefresh := fun _ => 0

/-- C4 counterexample: the email "bad" fails the pattern and the password
"short" has fewer than 8 runes, yet Login does not return InvalidInput — it
proceeds to the user lookup and surfaces that lookup's (marker) result. -/
theorem login_skips_pattern_checks_cex :
    emailMatches (goTrim (goLower "bad".toList)) = false
    ∧ (goTrim "short".toList).length < 8
    ∧ Login demoLoginDeps "bad".toList "short".toList = .error .conflict
    ∧ Login demoLoginDeps "bad".toList "short".toList ≠ .error .invalidInput := by
  decide

/-- C4 (amended).  Login does not re-run Register's validation: after
trim/lowercase it rejects only empty email or empty password with
InvalidInput; whenever both are non-empty the result is never InvalidInput
(provided the repository and session layer never produce that error), the
inputs instead reaching the user lookup; Register by contrast rejects any
pattern-failing email or sub-8-rune password with InvalidInput. -/
theorem login_validates_only_nonempty (d : AuthDeps) (email password : List Char)
    (hget : ∀ e, d.getByEmail e ≠ .error .invalidInput)
    (hsess : ∀ u h, d.createSession u h ≠ .error .invalidInput) :
    (goTrim (goLower email) = [] ∨ goTrim password = [] →
        Login d email password = .error .invalidInput)
    ∧ (goTrim (goLower email) ≠ [] → goTrim password ≠ [] →
        Login d email password ≠ .error .invalidInput)
    ∧ (¬ emailMatches (goTrim (goLower email)) ∨ (goTrim password).length < 8 →
        Register d email password = .error .invalidInput) := by
  refine ⟨?_, ?_, ?_⟩
  · intro hempty
    rw [Login]
    rw [if_pos hempty]
  · intro h1 h2
    rw [Login]
    rw [if_neg (by push_neg; exact ⟨h1, h2⟩)]
    cases hgb : d.getByEmail (goTrim (goLower email)) with
    | error e =>
        by_cases he : e = Err.notFound
        · simp [he]
        · simp [he]
          intro hc
          exact hget (goTrim (goLower email)) (by rw [hgb, hc])
    | ok pr =>
        obtain ⟨userID, hash⟩ := pr
        cases hv : d.verifyPwd (goTrim password) hash with
        | error e => simp [hv]
        | ok b =>
            cases b with
            | false => simp [hv]
            | true =>
                cases hma : d.mintAccess userID with
                | none => simp [hv, hma]
                | some access =>
                    cases hmr : d.mintRefresh with
                    | none => simp [hv, hma, hmr]
                    | some refresh =>
                        cases hcs : d.createSession userID (d.hashRefresh refresh) with
                        | error e =>
                            simp only [hv, hma, hmr, hcs]
                            intro hc
                            injection hc with hce
                            exact hsess userID (d.hashRefresh refresh) (by rw [hcs, hce])
                        | ok sid => simp [hv, hma, hmr, hcs]
  · intro hbad
    rw [Register]
    rw [if_pos (by tauto)]

/-- Witness for C4 at concrete inputs: a non-empty pattern-failing email
and a long password make Login proceed past validation, while Register
rejects the same email. -/
theorem login_validates_only_nonempty_witness :
    Login demoLoginDeps "bad".toList "password1".toList ≠ .error .invalidInput
    ∧ Register demoLoginDeps "bad".toList "password1".toList = .error .invalidInput :=
  ⟨(login_validates_only_nonempty demoLoginDeps "bad".toList "password1".toList
      (by intro e; simp [demoLoginDeps]) (by intro u h; simp [demoLoginDeps])).2.1 (by decide) (by decide),
   (login_validates_only_nonempty demoLoginDeps "bad".toList "password1".toList
      (by intro e; simp [demoLoginDeps]) (by intro u h; simp [demoLoginDeps])).2.2 (by decide)⟩

/-- One row of the sessions table (repository/sessions.go): id, owner,
refresh-token hash, expiry, optional revocation time, optional replacement
session id.  Ids and hashes are opaque numbers, times are integers. -/
structure SessionRow where
  sid : Nat
  userId : Nat
  refreshHash : Nat
  expiresAt : Int
  revokedAt : Option Int
  replacedBy : Option Nat
deriving DecidableEq

/-- RevokeAllForUser (repository/sessions.go): set revoked_at = now on all
of the user's sessions whose revoked_at is NULL. -/
def revokeAllForUser (st : List SessionRow) (u : Nat) (now : Int) : List SessionRow :=
  st.map (fun r =>
    if r.userId = u ∧ r.revokedAt = none then { r with revokedAt := some now } else r)

/-- RevokeAndReplace (repository/sessions.go): on the still-active session
with the given id, set revoked_at = now and replaced_by = newID. -/
def revokeAndReplace (st : List SessionRow) (oldID newID : Nat) (now : Int) :
    List SessionRow :=
  st.map (fun r =>
    if r.sid = oldID ∧ r.revokedAt = none then
      { r with revokedAt := some now, replacedBy := some newID }
    else r)

/-- Collaborators of Refresh: the refresh-token hash function, access-token
minting and refresh-token minting (None models an RNG/signing failure),
and the id the database assigns to a newly created session. -/
structure RefreshDeps where
  hashTok : List Char → Nat
  mintAccess : Nat → Option (List Char)
  mintRefresh : Option (List Char)
  nextSid : Nat

/-- Refresh from the service package, with the sessions table threaded
through explicitly.  GetByRefreshHash is the first match on the hash
(ErrUnauthorized on a miss, per the repository); expiresAt.Before(now) is
the strict order; session creation is the append of a fresh row with
expiry now + refreshTTL. -/
def Refresh (rotate reuse : Bool) (refreshTTL : Int) (d : RefreshDeps)
    (st : List SessionRow) (now : Int) (tok : List Char) :
    Except Err TokenPair × List SessionRow :=
  let tok := goTrim tok
  if tok = [] then (.error .invalidInput, st)
  else
    match st.find? (fun r => r.refreshHash == d.hashTok tok) with
    | none => (.error .unauthorized, st)
    | some r =>
        if r.expiresAt < now then (.error .unauthorized, st)
        else if r.revokedAt ≠ none then
          if reuse then (.error .unauthorized, revokeAllForUser st r.userId now)
          else (.error .unauthorized, st)
        else
          match d.mintAccess r.userId with
          | none => (.error .internalErr, st)
          | some access =>
              if !rotate then (.ok ⟨access, tok⟩, st)
              else
                match d.mintRefresh with
                | none => (.error .internalErr, st)
                | some newRefresh =>
                    let newID := d.nextSid
                    let created := st ++
                      [⟨newID, r.userId, d.hashTok newRefresh, now + refreshTTL, none, none⟩]
                    (.ok ⟨access, newRefresh⟩, revokeAndReplace created r.sid newID now)

/-- Demonstration dependencies for Refresh witnesses: the token hash is the
token length. -/
def demoRefreshDeps : RefreshDeps where
  hashTok := fun l => l.length
  mintAccess := fun _ => some "a".toList
  mintRefresh := some "r".toList
  nextSid := 2

/-- C3 counterexample: a session whose expiry equals the current instant is
found and not rejected — Refresh returns a fresh token pair, although the
claim requires Unauthorized whenever expiry ≤ now. -/
theorem refresh_expiry_boundary_cex :
    ([⟨1, 9, 1, 5, none, none⟩] : List SessionRow).find?
        (fun r => r.refreshHash == demoRefreshDeps.hashTok (goTrim "t".toList))
      = some ⟨1, 9, 1, 5, none, none⟩
    ∧ (Refresh false false 1000 demoRefreshDeps
        [⟨1, 9, 1, 5, none, none⟩] 5 "t".toList).1
      = .ok ⟨"a".toList, "t".toList⟩ := by
  decide

/-- C3 (amended).  For every refresh token whose session is found, Refresh
returns Unauthorized whenever the session's expiry is strictly before the
current time (expiresAt.Before(now)), issuing no token pair and leaving the
session table unchanged; at expiry = now the check does not fire. -/
theorem refresh_rejects_expired (rotate reuse : Bool) (ttl : Int) (d : RefreshDeps)
    (st : List SessionRow) (now : Int) (tok : List Char) (r : SessionRow)
    (hne : goTrim tok ≠ [])
    (hfind : st.find? (fun s => s.refreshHash == d.hashTok (goTrim tok)) = some r)
    (hexp : r.expiresAt < now) :
    Refresh rotate reuse ttl d st now tok = (.error .unauthorized, st) := by
  rw [Refresh]
  rw [if_neg hne, hfind]
  simp [hexp]

/-- Witness for C3 (amended) at a concrete expired session. -/
theorem refresh_rejects_expired_witness :
    Refresh true true 1000 demoRefreshDeps [⟨1, 9, 1, 4, none, none⟩] 5 "t".toList
      = (.error .unauthorized, [⟨1, 9, 1, 4, none, none⟩]) :=
  refresh_rejects_expired true true 1000 demoRefreshDeps
    [⟨1, 9, 1, 4, none, none⟩] 5 "t".toList ⟨1, 9, 1, 4, none, none⟩
    (by decide) (by decide) (by decide)

end AuthService

namespace SecretsServer

/-! Secret store: internal/server/repository/secrets.go and
internal/server/service/secrets.go.  The secrets table is a list of rows;
SQL semantics of the two gated writes and the existence probe are spelled
out on it. -/

/-- One row of the secrets table.  Ids are opaque numbers (uuid.Nil = 0),
times are integers. -/
structure Row where
  userId : Nat
  rid : Nat
  typ : String
  title : String
  payload : String
  meta : Option String
  version : Int
  updatedAt : Int
  createdAt : Int
deriving DecidableEq

/-- UpdateSecretRequest (service/models): one optional value per field
(present iff the client supplied it) plus the expected version. -/
structure UpdateSecretRequest where
  typ : Option String
  title : Option String
  payload : Option String
  meta : Option String
  version : Int
deriving DecidableEq

/-- The values of the Postgres ENUM secret_type (migration part_027); the
secrets.type column is declared secret_type NOT NULL. -/
def secretTypeEnum : List String :=
  ["login_password", "text", "binary", "bank_card", "otp"]

/-- Whether a string is a valid secret_type enum value. -/
def isEnumType (t : String) : Bool := secretTypeEnum.contains t

/-- Whether the UPDATE's type parameter binds to the secret_type column: a
NULL (absent) parameter or a valid enum value.  Binding any other string
makes the statement itself fail (invalid input value for the enum). -/
def typeParamOK (dta : UpdateSecretRequest) : Bool :=
  match dta.typ with
  | some t => isEnumType t
  | none => true

/-- The SET clause of the gated UPDATE: COALESCE each optional field with
the stored one, bump version by one, set updated_at = now().  Only
evaluated under the `typeParamOK` guard of RepoUpdateSecret, so a present
dta.typ is a valid secret_type value. -/
def applyUpdate (dta : UpdateSecretRequest) (now : Int) (r : Row) : Row :=
  { r with
    typ := dta.typ.getD r.typ
    title := dta.title.getD r.title
    payload := dta.payload.getD r.payload
    meta := match dta.meta with | some v => some v | none => r.meta
    version := r.version + 1
    updatedAt := now }

/-- The WHERE clause of the version-gated writes:
user_id = $u AND id = $i AND version = $v. -/
def rowMatches (u i : Nat) (v : Int) (r : Row) : Bool :=
  r.userId == u && r.rid == i && r.version == v

/-- The existence probe SELECT EXISTS (... WHERE user_id = $u AND id = $i). -/
def rowExists (db : List Row) (u i : Nat) : Bool :=
  db.any (fun r => r.userId == u && r.rid == i)

/-- SecretsRepository.UpdateSecret: run the gated UPDATE — whose $1 binds
to the ENUM-typed type column, so a non-enum type string makes ExecContext
fail and the method return ErrInternal with nothing written and no probe
issued; otherwise, if a row was affected, succeed; otherwise probe
existence and return ErrSecretVersionConflict (the Conflict kind, see
`Err`) when the row exists, ErrNotFound when it does not. -/
def RepoUpdateSecret (db : List Row) (u i : Nat) (dta : UpdateSecretRequest)
    (now : Int) : Except Err Unit × List Row :=
  if typeParamOK dta then
    let affected := db.countP (fun r => rowMatches u i dta.version r)
    let written := db.map
      (fun r => if rowMatches u i dta.version r then applyUpdate dta now r else r)
    if affected > 0 then (.ok (), written)
    else if rowExists db u i then (.error .conflict, db)
    else (.error .notFound, db)
  else (.error .internalErr, db)

/-- SecretsRepository.DeleteSecret: the gated DELETE, then the same
existence probe (returning ErrConflict / ErrNotFound). -/
def RepoDeleteSecret (db : List Row) (u i : Nat) (version : Int) :
    Except Err Unit × List Row :=
  let affected := db.countP (fun r => rowMatches u i version r)
  let remaining := db.filter (fun r => !(rowMatches u i version r))
  if affected > 0 then (.ok (), remaining)
  else if rowExists db u i then (.error .conflict, db)
  else (.error .notFound, db)

/-- config.SecretsConfig: the storage policy. -/
structure SecretsConfig where
  maxPayloadBytes : Int
  maxMetaBytes : Int
  allowedTypes : List String
deriving DecidableEq

/-- SecretsService.validateType: the type must be in the allow-list. -/
def validateType (pol : SecretsConfig) (t : String) : Except Err Unit :=
  if pol.allowedTypes.contains t then .ok () else .error .invalidInput

/-- strings.TrimSpace on a String. -/
def goTrimStr (s : String) : String := ⟨goTrim s.toList⟩

/-- SecretsRepository.Create: INSERT a fresh row; the database assigns the
id (passed in as `newId`), version 1 and the timestamps.  The INSERT binds
type to the same ENUM column; SvcCreate reaches it only with an
allow-listed type, and the configuration constrains allowed_types to a
subset of the enum, so the cast-failure path does not arise on that
route and is not modelled here. -/
def RepoCreate (db : List Row) (u : Nat) (typ title payload : String)
    (meta : Option String) (newId : Nat) (now : Int) :
    (Nat × Int × Int) × List Row :=
  ((newId, 1, now), db ++ [⟨u, newId, typ, title, payload, meta, 1, now, now⟩])

/-- SecretsService.Create: the validation policy (empty title/payload,
type allow-list, payload and meta limits), then the repository insert.
Lengths are rune counts, matching Go byte lengths on ASCII data. -/
def SvcCreate (pol : SecretsConfig) (db : List Row) (u : Nat)
    (typ title payload : String) (meta : Option String) (newId : Nat) (now : Int) :
    Except Err (Nat × Int × Int) × List Row :=
  if title = "" ∨ payload = "" then (.error .invalidInput, db)
  else
    match validateType pol (goTrimStr typ) with
    | .error e => (.error e, db)
    | .ok _ =>
        if pol.maxPayloadBytes < (payload.length : Int) then
          (.error .payloadTooLarge, db)
        else if meta.isSome ∧ pol.maxMetaBytes < ((meta.getD "").length : Int) then
          (.error .invalidInput, db)
        else
          let res := RepoCreate db u (goTrimStr typ) title payload meta newId now
          (.ok res.1, res.2)

/-- SecretsService.UpdateSecret: only the empty-user-id guard, then the
repository call — the Create-time field validation is absent.  The policy
is a field of the service but is not consulted. -/
def SvcUpdateSecret (_pol : SecretsConfig) (db : List Row) (u i : Nat)
    (dta : UpdateSecretRequest) (now : Int) : Except Err Unit × List Row :=
  if u = 0 then (.error .userIDEmpty, db)
  else RepoUpdateSecret db u i dta now

/-- SecretsService.DeleteSecret: the empty-user-id guard, then the
repository call. -/
def SvcDeleteSecret (_pol : SecretsConfig) (db : List Row) (u i : Nat)
    (version : Int) : Except Err Unit × List Row :=
  if u = 0 then (.error .userIDEmpty, db)
  else RepoDeleteSecret db u i version

theorem countP_pos_of_match {db : List Row} {u i : Nat} {v : Int} {r : Row}
    (hr : r ∈ db) (hm : rowMatches u i v r = true) :
    0 < db.countP (fun s => rowMatches u i v s) :=
  List.countP_pos_iff.mpr ⟨r, hr, hm⟩

theorem countP_zero_of_no_match {db : List Row} {u i : Nat} {v : Int}
    (h : ∀ r ∈ db, rowMatches u i v r = false) :
    db.countP (fun s => rowMatches u i v s) = 0 :=
  List.countP_eq_zero.mpr (fun r hr => by rw [h r hr]; exact Bool.false_ne_true)

theorem no_match_of_not_exists {db : List Row} {u i : Nat} {v : Int}
    (h : rowExists db u i = false) :
    ∀ r ∈ db, rowMatches u i v r = false := by
  intro r hr
  have hf : (r.userId == u && r.rid == i) = false :=
    Bool.eq_false_iff.mpr (List.any_eq_false.mp h r hr)
  rw [rowMatches, hf, Bool.false_and]

/-- C2 (amended).  Optimistic concurrency disambiguation for Update and
Delete of a secret (service level, non-zero user id), for updates whose
type parameter binds to the secret_type enum (absent or a valid value):
when a row matching (user, id, expected version) exists the write
succeeds — for Update the matched row reappears with its version bumped
by 1 and updated_at set to now, for Delete all matched rows are removed
and the others kept; when no row passes the version gate the existence
probe on (user, id) decides: exists ⇒ Conflict, absent ⇒ NotFound, with
the table unchanged either way.  An update carrying a non-enum type
instead fails as Internal with the table unchanged and no probe issued. -/
theorem occ_update_delete (pol : SecretsConfig) (db : List Row) (u i : Nat)
    (dta : UpdateSecretRequest) (vdel now : Int) (hu : u ≠ 0) :
    (typeParamOK dta = true → (∃ r ∈ db, rowMatches u i dta.version r = true) →
        (SvcUpdateSecret pol db u i dta now).1 = .ok ()
        ∧ ∀ r ∈ db, rowMatches u i dta.version r = true →
            applyUpdate dta now r ∈ (SvcUpdateSecret pol db u i dta now).2
            ∧ (applyUpdate dta now r).version = dta.version + 1
            ∧ (applyUpdate dta now r).updatedAt = now)
    ∧ (typeParamOK dta = true → (∀ r ∈ db, rowMatches u i dta.version r = false) →
        rowExists db u i = true →
        SvcUpdateSecret pol db u i dta now = (.error .conflict, db))
    ∧ (typeParamOK dta = true → rowExists db u i = false →
        SvcUpdateSecret pol db u i dta now = (.error .notFound, db))
    ∧ (typeParamOK dta = false →
        SvcUpdateSecret pol db u i dta now = (.error .internalErr, db))
    ∧ ((∃ r ∈ db, rowMatches u i vdel r = true) →
        (SvcDeleteSecret pol db u i vdel).1 = .ok ()
        ∧ (∀ r ∈ db, rowMatches u i vdel r = true →
            r ∉ (SvcDeleteSecret pol db u i vdel).2)
        ∧ (∀ r ∈ db, rowMatches u i vdel r = false →
            r ∈ (SvcDeleteSecret pol db u i vdel).2))
    ∧ ((∀ r ∈ db, rowMatches u i vdel r = false) → rowExists db u i = true →
        SvcDeleteSecret pol db u i vdel = (.error .conflict, db))
    ∧ (rowExists db u i = false →
        SvcDeleteSecret pol db u i vdel = (.error .notFound, db)) := by
  refine ⟨?_, ?_, ?_, ?_, ?_, ?_, ?_⟩
  · rintro ht ⟨r0, hr0, hm0⟩
    have hpos := countP_pos_of_match hr0 hm0
    simp only [SvcUpdateSecret, if_neg hu, RepoUpdateSecret]
    rw [if_pos ht, if_pos hpos]
    refine ⟨rfl, ?_⟩
    intro r hr hm
    refine ⟨?_, ?_, rfl⟩
    · have hmem : (if rowMatches u i dta.version r = true then applyUpdate dta now r else r)
          ∈ db.map (fun s =>
            if rowMatches u i dta.version s = true then applyUpdate dta now s else s) :=
        List.mem_map_of_mem _ hr
      rw [if_pos hm] at hmem
      simpa using hmem
    · have hv : r.version = dta.version := by
        rw [rowMatches, Bool.and_eq_true, Bool.and_eq_true] at hm
        exact beq_iff_eq.mp hm.2
      simp [applyUpdate, hv]
  · intro ht hno hex
    simp only [SvcUpdateSecret, if_neg hu, RepoUpdateSecret]
    rw [if_pos ht, countP_zero_of_no_match hno]
    rw [if_neg (lt_irrefl 0), if_pos hex]
  · intro ht hex
    have hno := no_match_of_not_exists (v := dta.version) hex
    simp only [SvcUpdateSecret, if_neg hu, RepoUpdateSecret]
    rw [if_pos ht, countP_zero_of_no_match hno]
    rw [if_neg (lt_irrefl 0), if_neg (by simp [hex])]
  · intro ht
    simp only [SvcUpdateSecret, if_neg hu, RepoUpdateSecret]
    rw [if_neg (by simp [ht])]
  · rintro ⟨r0, hr0, hm0⟩
    have hpos := countP_pos_of_match hr0 hm0
    simp only [SvcDeleteSecret, if_neg hu, RepoDeleteSecret]
    rw [if_pos hpos]
    refine ⟨rfl, ?_, ?_⟩
    · intro r hr hm hmem
      have hmem2 : r ∈ db.filter (fun s => !(rowMatches u i vdel s)) := hmem
      rw [List.mem_filter, hm] at hmem2
      simp at hmem2
    · intro r hr hm
      exact List.mem_filter.mpr ⟨hr, by rw [hm]; rfl⟩
  · intro hno hex
    simp only [SvcDeleteSecret, if_neg hu, RepoDeleteSecret]
    rw [countP_zero_of_no_match hno]
    rw [if_neg (lt_irrefl 0), if_pos hex]
  · intro hex
    have hno := no_match_of_not_exists (v := vdel) hex
    simp only [SvcDeleteSecret, if_neg hu, RepoDeleteSecret]
    rw [countP_zero_of_no_match hno]
    rw [if_neg (lt_irrefl 0), if_neg (by simp [hex])]

/-- A one-row table used by the secret-store witnesses. -/
def demoDb : List Row := [⟨1, 10, "text", "t", "p", none, 3, 0, 0⟩]

/-- A field-bearing update passing the version gate of demoDb. -/
def demoUpd : UpdateSecretRequest :=
  { typ := none, title := some "t2", payload := none, meta := none, version := 3 }

/-- A restrictive policy used to exhibit the absent Update validation. -/
def demoPolicy : SecretsConfig :=
  { maxPayloadBytes := 4, maxMetaBytes := 2, allowedTypes := ["text"] }

/-- A field-bearing update violating every Create-time rule of demoPolicy
while passing the version gate of demoDb; its type "otp" is a valid
secret_type enum value outside the allow-list. -/
def demoBadUpdate : UpdateSecretRequest :=
  { typ := some "otp", title := some "t2", payload := some "longpayload",
    meta := some "bigmeta", version := 3 }

/-- C2 counterexample: an update carrying a type outside the secret_type
enum makes the UPDATE statement itself fail although the expected version
matches the stored row — the repository returns ErrInternal with the table
unchanged and no probe issued, where the claim requires the
success/Conflict/NotFound trichotomy. -/
theorem occ_update_enum_cex :
    isEnumType "bogus" = false
    ∧ (∃ r ∈ demoDb, rowMatches 1 10 (3 : Int) r = true)
    ∧ SvcUpdateSecret demoPolicy demoDb 1 10
        { typ := some "bogus", title := none, payload := none, meta := none,
          version := 3 } 7
      = (.error .internalErr, demoDb) := by
  decide

/-- Witness for C2 (amended): a version-matching update succeeds on
demoDb, and a delete with a stale version yields Conflict with the table
unchanged. -/
theorem occ_update_delete_witness :
    (SvcUpdateSecret demoPolicy demoDb 1 10 demoUpd 7).1 = .ok ()
    ∧ SvcDeleteSecret demoPolicy demoDb 1 10 99 = (.error .conflict, demoDb) :=
  ⟨((occ_update_delete demoPolicy demoDb 1 10 demoUpd 99 7 (by decide)).1
      (by decide) (by decide)).1,
   (occ_update_delete demoPolicy demoDb 1 10 demoUpd 99 7 (by decide)).2.2.2.2.2.1
     (by decide) (by decide)⟩

/-- C5 counterexample: an update whose type "otp" is a valid secret_type
value but outside the configured allow-list, and whose payload and meta
exceed the configured limits, is not rejected — the write reaches the
repository and succeeds, where the claim requires InvalidInput /
PayloadTooLarge before any write. -/
theorem update_validation_cex :
    isEnumType "otp" = true
    ∧ demoPolicy.allowedTypes.contains "otp" = false
    ∧ demoPolicy.maxPayloadBytes < ("longpayload".length : Int)
    ∧ demoPolicy.maxMetaBytes < ("bigmeta".length : Int)
    ∧ SvcUpdateSecret demoPolicy demoDb 1 10 demoBadUpdate 7
        = (.ok (), [⟨1, 10, "otp", "t2", "longpayload", some "bigmeta", 4, 7, 0⟩]) := by
  decide

/-- C5 (amended).  UpdateSecret performs no policy validation: its outcome
is independent of the configured policy, it can never return InvalidInput
or PayloadTooLarge, and a version-matching update whose supplied type (if
any) is a valid secret_type value succeeds even when that type is outside
the allow-list and the payload and meta exceed the configured limits —
field-bearing updates reach the repository unchecked, where a non-enum
type fails as Internal from the database, never as a validation error. -/
theorem update_not_validated (pol pol2 : SecretsConfig) (db : List Row) (u i : Nat)
    (dta : UpdateSecretRequest) (now : Int) :
    SvcUpdateSecret pol db u i dta now = SvcUpdateSecret pol2 db u i dta now
    ∧ (SvcUpdateSecret pol db u i dta now).1 ≠ .error .invalidInput
    ∧ (SvcUpdateSecret pol db u i dta now).1 ≠ .error .payloadTooLarge
    ∧ (u ≠ 0 → typeParamOK dta = true →
        (∃ r ∈ db, rowMatches u i dta.version r = true) →
        (SvcUpdateSecret pol db u i dta now).1 = .ok ()) := by
  refine ⟨rfl, ?_, ?_, ?_⟩
  · simp only [SvcUpdateSecret, RepoUpdateSecret]
    split_ifs <;> simp
  · simp only [SvcUpdateSecret, RepoUpdateSecret]
    split_ifs <;> simp
  · rintro hu ht ⟨r0, hr0, hm0⟩
    simp only [SvcUpdateSecret, if_neg hu, RepoUpdateSecret]
    rw [if_pos ht, if_pos (countP_pos_of_match hr0 hm0)]

/-- Witness for C5 (amended): the policy-violating (but enum-valid) update
of the counterexample succeeds. -/
theorem update_not_validated_witness :
    (SvcUpdateSecret demoPolicy demoDb 1 10 demoBadUpdate 7).1 = .ok () :=
  (update_not_validated demoPolicy demoPolicy demoDb 1 10 demoBadUpdate 7).2.2.2
    (by decide) (by decide) (by decide)

end SecretsServer

namespace Memory

/-- UpdateFromDB from part_004: update the Type / Payload / Meta fields of
the entry when the corresponding argument is present, always refresh
UpdatedAt, and return ErrSecretNotFound when the id is absent.  The
parameter order is (secreType, payload, meta) — there is no title
parameter. -/
def UpdateFromDB (st : SMap) (sid : String)
    (secreType payload meta : Option String) (now : Int) : Except Err SMap :=
  match mapGet st sid with
  | none => .error .secretNotFound
  | some sec =>
      let sec1 := match secreType with | some t => { sec with typ := t } | none => sec
      let sec2 := match payload with | some p => { sec1 with payload := p } | none => sec1
      let sec3 := match meta with | some mm => { sec2 with meta := some mm } | none => sec2
      .ok (mapInsert st sid { sec3 with updatedAt := now })

end Memory

namespace AgentCLI

/-! Agent update command: internal/agent/cli/secret_update.go. -/

/-- The update flags the user supplied: each field is present iff its flag
was set.  `payloadB64` holds base64(EncryptPayload(master password, new
plaintext)), which the flow computes before sending. -/
structure UpdateFlags where
  typ : Option String
  title : Option String
  payloadB64 : Option String
  meta : Option String
deriving DecidableEq

/-- Outcome of the update command: the error or success message, the
in-memory mirror afterwards, and whether the mirror file was persisted. -/
structure UpdateOutcome where
  result : Except String String
  mirror : Memory.SMap
  savedToFile : Bool
deriving DecidableEq

/-- SecretUpdate's RunE (secret_update.go) as a function of the mirror, the
flags and the two server round-trip results.  It mirrors the source order:
access-token guard, local Get (for the version), at-least-one-flag check,
server PUT, local UpdateFromDB — the source passes (typePtr, titlePtr,
payloadPtr) into UpdateFromDB's (secreType, payload, meta) parameters —
then Sync; on Sync failure the error is prefixed
"update ok, but sync failed: " and neither ReplaceAll nor the file save
happens. -/
def SecretUpdateRun (hasToken : Bool) (st : Memory.SMap) (sid : String)
    (fl : UpdateFlags) (updateResult : Except String Unit)
    (syncResult : Except String (List Memory.Secret)) (now : Int) : UpdateOutcome :=
  if !hasToken then ⟨.error "no access_token, run: gophkeeper login", st, false⟩
  else
    match Memory.Get st sid with
    | .error _ => ⟨.error "secret not found locally (run: gophkeeper sync)", st, false⟩
    | .ok _ =>
        if fl.typ = none ∧ fl.title = none ∧ fl.payloadB64 = none ∧ fl.meta = none then
          ⟨.error "nothing to update: set at least one flag", st, false⟩
        else
          match updateResult with
          | .error e => ⟨.error e, st, false⟩
          | .ok _ =>
              match Memory.UpdateFromDB st sid fl.typ fl.title fl.payloadB64 now with
              | .error _ => ⟨.error "secret not found", st, false⟩
              | .ok st1 =>
                  match syncResult with
                  | .error e =>
                      ⟨.error ("update ok, but sync failed: " ++ e), st1, false⟩
                  | .ok secrets =>
                      ⟨.ok ("updated secret " ++ sid),
                        Memory.ReplaceAll st1 secrets, true⟩

/-- A one-entry mirror used by the update-command theorems. -/
def demoMirror : Memory.SMap :=
  [("s1", ⟨"s1", "text", "oldtitle", "oldpayload", none, 3, 0, 0⟩)]

/-- C6 counterexample: the server update succeeds and the sync fails; the
command surfaces "update ok, but sync failed: …" but the mirror is NOT
untouched — the entry's payload field now holds the new title (the title
pointer was passed into UpdateFromDB's payload parameter) and its local
updated_at moved. -/
theorem update_sync_failed_cex :
    (SecretUpdateRun true demoMirror "s1"
        ⟨none, some "NEW", none, none⟩ (.ok ()) (.error "boom") 9).result
      = .error "update ok, but sync failed: boom"
    ∧ (SecretUpdateRun true demoMirror "s1"
        ⟨none, some "NEW", none, none⟩ (.ok ()) (.error "boom") 9).mirror
      ≠ demoMirror
    ∧ Memory.mapGet (SecretUpdateRun true demoMirror "s1"
        ⟨none, some "NEW", none, none⟩ (.ok ()) (.error "boom") 9).mirror "s1"
      = some ⟨"s1", "text", "oldtitle", "NEW", none, 3, 9, 0⟩ := by
  decide

/-- C6 (amended).  If the server Update succeeds and the subsequent
List/sync fails, the command surfaces "update ok, but sync failed: …" and
does not persist the mirror file, but the in-memory mirror entry has
already been modified by UpdateFromDB before the sync: its type takes a
supplied --type, its payload field takes a supplied --title, its meta
field takes a supplied --payload ciphertext (the CLI passes the type,
title and payload pointers into UpdateFromDB's type, payload and meta
parameters), its local updated_at is refreshed, and its title and version
are unchanged; entries with other ids are untouched. -/
theorem update_sync_failed_mirror (st : Memory.SMap) (sid : String)
    (fl : UpdateFlags) (emsg : String) (now : Int) (sec : Memory.Secret)
    (hget : Memory.mapGet st sid = some sec)
    (hflag : ¬ (fl.typ = none ∧ fl.title = none ∧ fl.payloadB64 = none ∧ fl.meta = none)) :
    (SecretUpdateRun true st sid fl (.ok ()) (.error emsg) now).result
        = .error ("update ok, but sync failed: " ++ emsg)
    ∧ (SecretUpdateRun true st sid fl (.ok ()) (.error emsg) now).savedToFile = false
    ∧ (SecretUpdateRun true st sid fl (.ok ()) (.error emsg) now).mirror
        = Memory.mapInsert st sid
            { sec with
              typ := fl.typ.getD sec.typ
              payload := fl.title.getD sec.payload
              meta := fl.payloadB64.elim sec.meta some
              updatedAt := now } := by
  obtain ⟨ft, ftt, fp, fm⟩ := fl
  have hrun : SecretUpdateRun true st sid ⟨ft, ftt, fp, fm⟩ (.ok ()) (.error emsg) now
      = ⟨.error ("update ok, but sync failed: " ++ emsg),
          Memory.mapInsert st sid
            { sec with
              typ := ft.getD sec.typ
              payload := ftt.getD sec.payload
              meta := fp.elim sec.meta some
              updatedAt := now }, false⟩ := by
    rw [SecretUpdateRun]
    rw [show Memory.Get st sid = .ok sec from by rw [Memory.Get, hget]]
    simp only [Bool.not_true]
    rw [if_neg (by simp), if_neg hflag]
    rw [show Memory.UpdateFromDB st sid ft ftt fp now
        = .ok (Memory.mapInsert st sid
            { sec with
              typ := ft.getD sec.typ
              payload := ftt.getD sec.payload
              meta := fp.elim sec.meta some
              updatedAt := now }) from by
      rw [Memory.UpdateFromDB, hget]
      cases ft <;> cases ftt <;> cases fp <;> rfl]
  rw [hrun]
  exact ⟨rfl, rfl, rfl⟩

/-- Witness for C6 (amended) at the counterexample's inputs. -/
theorem update_sync_failed_mirror_witness :
    (SecretUpdateRun true demoMirror "s1"
        ⟨none, some "NEW", none, none⟩ (.ok ()) (.error "boom") 9).result
      = .error ("update ok, but sync failed: " ++ "boom")
    ∧ (SecretUpdateRun true demoMirror "s1"
        ⟨none, some "NEW", none, none⟩ (.ok ()) (.error "boom") 9).savedToFile = false
    ∧ (SecretUpdateRun true demoMirror "s1"
        ⟨none, some "NEW", none, none⟩ (.ok ()) (.error "boom") 9).mirror
      = Memory.mapInsert demoMirror "s1"
          { (⟨"s1", "text", "oldtitle", "oldpayload", none, 3, 0, 0⟩ : Memory.Secret) with
            typ := (none : Option String).getD "text"
            payload := (some "NEW").getD "oldpayload"
            meta := (none : Option String).elim none some
            updatedAt := 9 } :=
  update_sync_failed_mirror demoMirror "s1" ⟨none, some "NEW", none, none⟩ "boom" 9
    ⟨"s1", "text", "oldtitle", "oldpayload", none, 3, 0, 0⟩ (by decide) (by decide)

end AgentCLI

namespace AgentAPI

/-! JSON client: the newer Client of the agent api package (part_003). -/

/-- The parts of an http.Response that the client's response phase reads. -/
structure HTTPResponse where
  statusCode : Nat
  status : String
  body : String
deriving DecidableEq

/-- readAPIErrorBody (part_003): the whole body trimmed of surrounding
whitespace; the status line if that leaves nothing. -/
def readAPIErrorBody (res : HTTPResponse) : List Char :=
  let msg := goTrim res.body.toList
  if msg = [] then res.status.toList else msg

/-- How the response phase common to PostJSON / GetJSON / PutJSON /
DeleteJSON classifies a response. -/
inductive RespOutcome where
  | errMsg (msg : List Char)
  | okNoDecode
  | okDecode
deriving DecidableEq

/-- The response phase shared verbatim by the four client methods: a
status outside [200, 300) fails with readAPIErrorBody's message; 204
succeeds without reading the body; any other 2xx goes on to decode the
body (with EOF tolerated). -/
def clientRespPhase (res : HTTPResponse) : RespOutcome :=
  if res.statusCode < 200 ∨ 300 ≤ res.statusCode then .errMsg (readAPIErrorBody res)
  else if res.statusCode = 204 then .okNoDecode
  else .okDecode

/-- C7 counterexample: a 404 response whose body is a single space — a
non-empty body — produces the status line as the error message, not the
body trimmed of whitespace (which is empty). -/
theorem client_error_body_cex :
    clientRespPhase ⟨404, "404 Not Found", " "⟩ = .errMsg "404 Not Found".toList
    ∧ clientRespPhase ⟨404, "404 Not Found", " "⟩ ≠ .errMsg (goTrim " ".toList) := by
  decide

/-- C7 (amended).  Uniform client error/success semantics: outside 2xx the
methods fail with the body trimmed of surrounding whitespace whenever some
non-whitespace remains, and fall back to the status line exactly when the
trimmed body is empty (the body empty or all-whitespace); every
204 No Content succeeds without attempting to decode any body. -/
theorem client_uniform_semantics (res : HTTPResponse) :
    (res.statusCode < 200 ∨ 300 ≤ res.statusCode → goTrim res.body.toList ≠ [] →
        clientRespPhase res = .errMsg (goTrim res.body.toList))
    ∧ (res.statusCode < 200 ∨ 300 ≤ res.statusCode → goTrim res.body.toList = [] →
        clientRespPhase res = .errMsg res.status.toList)
    ∧ (res.statusCode = 204 → clientRespPhase res = .okNoDecode) := by
  refine ⟨?_, ?_, ?_⟩
  · intro hs hb
    rw [clientRespPhase, if_pos hs, readAPIErrorBody]
    rw [if_neg hb]
  · intro hs hb
    rw [clientRespPhase, if_pos hs, readAPIErrorBody]
    rw [if_pos hb]
  · intro hs
    rw [clientRespPhase, if_neg (by omega), if_pos hs]

/-- Witness for C7 (amended) at three concrete responses. -/
theorem client_uniform_semantics_witness :
    clientRespPhase ⟨409, "409 Conflict", "  version conflict "⟩
      = .errMsg (goTrim "  version conflict ".toList)
    ∧ clientRespPhase ⟨500, "500 Internal Server Error", ""⟩
      = .errMsg "500 Internal Server Error".toList
    ∧ clientRespPhase ⟨204, "204 No Content", "ignored"⟩ = .okNoDecode :=
  ⟨(client_uniform_semantics ⟨409, "409 Conflict", "  version conflict "⟩).1
      (by decide) (by decide),
   (client_uniform_semantics ⟨500, "500 Internal Server Error", ""⟩).2.1
      (by decide) (by decide),
   (client_uniform_semantics ⟨204, "204 No Content", "ignored"⟩).2.2 (by decide)⟩

end AgentAPI

end Gophkeeper
